import Mathlib

/-!
Verification of the Flow Graph State Engine of the rcs-chatbot-builder
repository: a shallow embedding of the store (`src/store/nodesStore.ts`),
the connection deriver (`createConnectionData`), the connect handler
(`onConnect` in the ChatbotBuilder component), the import/export codec
(`ExportImportPanel`) and the carousel-card editing operation
(`addNewCarouselCard` in the CarouselCard component), together with
theorems settling the specification's claims about them.
-/

/-- Position of a node on the canvas (`XYPosition` from the visual layer).
Coordinates are modelled as integers; none of the verified operations
performs arithmetic on them, they are only copied around. -/
structure XYPosition where
  x : Int
  y : Int
deriving DecidableEq, Repr

/-- One call-to-action entry of a card (`CardActions` in `src/types`). -/
structure CardActions where
  value : String
deriving DecidableEq, Repr

/-- One carousel slide (`CardItem` in `src/types`). -/
structure CardItem where
  title : String
  description : String
  image : String
  actions : List CardActions
  selected : Option Bool := none
deriving DecidableEq, Repr

/-- Content of a carousel node (`CarouselData` in `src/types`). -/
structure CarouselData where
  cards : List CardItem
deriving DecidableEq, Repr

/-- Content of a rich-card node (`RichCardData` in `src/types`). -/
structure RichCardData where
  title : String
  description : String
  image : String
  actions : List CardActions
deriving DecidableEq, Repr

/-- The two custom node kinds (`CustomNodeTypes` in `src/types`). -/
inductive CustomNodeTypes where
  | carousel
  | richCard
deriving DecidableEq, Repr

/-- The untagged union `CarouselData | RichCardData` used as the `content`
field of a node's datum. -/
inductive NodeContent where
  | carousel (c : CarouselData)
  | richCard (r : RichCardData)
deriving DecidableEq, Repr

/-- Datum carried by a node (`NodeDatum` in `src/types`): a kind tag plus
the content union. -/
structure NodeDatum where
  type : CustomNodeTypes
  content : NodeContent
deriving DecidableEq, Repr

/-- Measured dimensions reported back by the visual layer. -/
structure Measured where
  width : Option Int := none
  height : Option Int := none
deriving DecidableEq, Repr

/-- A node of the flow (`NodeData` in `src/types`). -/
structure NodeData where
  id : String
  position : XYPosition
  type : Option String := none
  data : NodeDatum
  measured : Option Measured := none
  selected : Option Bool := none
  dragging : Option Bool := none
deriving DecidableEq, Repr

/-- Visual-layer edge descriptor (the `Edge` type of the flow library) with
the fields the repository reads or writes; `style` and `data` are opaque
presentation payloads carried through untouched. -/
structure Edge where
  id : String
  source : String
  target : String
  sourceHandle : Option String := none
  targetHandle : Option String := none
  type : Option String := none
  animated : Option Bool := none
  style : Option String := none
  data : Option String := none
deriving DecidableEq, Repr

/-- A canonical connection record (`ConnectionData` in
`src/store/nodesStore.ts`). -/
structure ConnectionData where
  id : String
  sourceId : String
  targetId : String
  sourcePosition : XYPosition
  targetPosition : XYPosition
  edgeData : Edge
deriving DecidableEq, Repr

/-- The store's state: the node sequence and the connection sequence
(the durable projection of `NodesState` in `src/store/nodesStore.ts`). -/
structure NodesState where
  nodes : List NodeData
  connections : List ConnectionData
deriving DecidableEq, Repr

/-- Store operation `setNodes`: replaces the entire node sequence. -/
def setNodes (nodes : List NodeData) (s : NodesState) : NodesState :=
  { s with nodes := nodes }

/-- Store operation `addNode`: appends a node to the node sequence. -/
def addNode (node : NodeData) (s : NodesState) : NodesState :=
  { s with nodes := s.nodes ++ [node] }

/-- Store operation `updateNode`: replaces each node whose id matches the
argument's id (`nodes.map (n => n.id === node.id ? node : n)`). -/
def updateNode (node : NodeData) (s : NodesState) : NodesState :=
  { s with nodes := s.nodes.map (fun n => if n.id == node.id then node else n) }

/-- Store operation `removeNode`: filters out nodes with the given id
(`nodes.filter (n => n.id !== id)`). -/
def removeNode (id : String) (s : NodesState) : NodesState :=
  { s with nodes := s.nodes.filter (fun n => n.id != id) }

/-- Store operation `addConnection`: appends a connection. -/
def addConnection (connection : ConnectionData) (s : NodesState) : NodesState :=
  { s with connections := s.connections ++ [connection] }

/-- Store operation `updateConnection`: replaces each connection whose id
matches the argument's id. -/
def updateConnection (connection : ConnectionData) (s : NodesState) : NodesState :=
  { s with connections :=
      s.connections.map (fun conn => if conn.id == connection.id then connection else conn) }

/-- Store operation `removeConnection`: filters out the connection with the
given id. -/
def removeConnection (id : String) (s : NodesState) : NodesState :=
  { s with connections := s.connections.filter (fun conn => conn.id != id) }

/-- Store query `getConnectionsByNodeId`: the connections in which the given
node id appears as source or target
(`connections.filter (conn => conn.sourceId === nodeId || conn.targetId === nodeId)`).
It reads the state and returns a list; it performs no mutation. -/
def getConnectionsByNodeId (nodeId : String) (s : NodesState) : List ConnectionData :=
  s.connections.filter (fun conn => conn.sourceId == nodeId || conn.targetId == nodeId)

/-- Store operation `clearConnections`: empties the connection sequence. -/
def clearConnections (s : NodesState) : NodesState :=
  { s with connections := [] }

/-- The connection deriver `createConnectionData` of
`src/store/nodesStore.ts`: builds a `ConnectionData` from the two endpoint
nodes and the edge descriptor, copying `edge.id` as the connection id and
snapshotting the endpoint positions. -/
def createConnectionData (sourceNode targetNode : NodeData) (edge : Edge) : ConnectionData :=
  { id := edge.id
    sourceId := sourceNode.id
    targetId := targetNode.id
    sourcePosition := sourceNode.position
    targetPosition := targetNode.position
    edgeData := edge }

/-- Parameters of a connect event from the visual layer (the flow library's
`Connection` object passed to `onConnect`): endpoint node ids and optional
handle ids. It carries no id of its own. -/
structure ConnectParams where
  source : String
  target : String
  sourceHandle : Option String := none
  targetHandle : Option String := none
deriving DecidableEq, Repr

/-- The edge the `onConnect` handler of the ChatbotBuilder component
synthesizes from the connect parameters: its id is
`edge-<source>-<target>-<Date.now()>`; the timestamp is passed in
explicitly here as `now`. -/
def mkNewEdge (params : ConnectParams) (now : String) : Edge :=
  { id := "edge-" ++ params.source ++ "-" ++ params.target ++ "-" ++ now
    source := params.source
    target := params.target
    sourceHandle := params.sourceHandle
    targetHandle := params.targetHandle }

/-- Store effect of the `onConnect` handler of the ChatbotBuilder component:
look up both endpoint nodes by id in the visual node list; if both are
found, derive a connection with `createConnectionData` and add it with
`addConnection`; otherwise leave the store untouched. (The handler's
parallel append to the visual edge list does not touch the store and is
outside this model.) -/
def onConnect (params : ConnectParams) (now : String) (nodes : List NodeData)
    (s : NodesState) : NodesState :=
  let newEdge := mkNewEdge params now
  match nodes.find? (fun node => node.id == params.source),
        nodes.find? (fun node => node.id == params.target) with
  | some sourceNode, some targetNode =>
      addConnection (createConnectionData sourceNode targetNode newEdge) s
  | _, _ => s

/-- A JSON field value as the import codec classifies it: either an array of
the expected element type, or present but not an array (a value on which
the codec's `Array.isArray` check fails, including falsy values, which fail
the preceding truthiness check instead). -/
inductive JField (α : Type) where
  | jarray (xs : List α)
  | jother
deriving DecidableEq, Repr

/-- A successfully parsed import document, classified the way
`handleFileChange` in the ExportImportPanel inspects it: an object (with
its optional `nodes` and `connections` fields), a bare array at the root,
or any other JSON value (number, string, boolean, null). -/
inductive ImportedDoc where
  | jobject (nodesF : Option (JField NodeData)) (connectionsF : Option (JField ConnectionData))
  | jarrayDoc (ns : List NodeData)
  | jotherDoc
deriving DecidableEq, Repr

/-- Outcome of an import attempt: success, or the format-error path (the
`catch` branch that alerts "Invalid file format"). Both carry the store
state left behind by the attempt. -/
inductive ImportResult where
  | success (s : NodesState)
  | formatError (s : NodesState)
deriving DecidableEq, Repr

/-- The `reader.onload` body of `handleFileChange` in the ExportImportPanel,
applied to an already parsed document. The code first calls
`clearConnections()`, then checks for a `nodes` array field (falling back
to a bare array root, else throwing), then, if a `connections` array field
is present, appends each of its elements with `addConnection` in order.
A thrown error is caught and surfaces as a format error, leaving the store
as the failed attempt left it. -/
def importFlowData (d : ImportedDoc) (s : NodesState) : ImportResult :=
  let s1 := clearConnections s
  match d with
  | .jarrayDoc ns => .success (setNodes ns s1)
  | .jobject nodesF connectionsF =>
      match nodesF with
      | some (.jarray ns) =>
          let s2 := setNodes ns s1
          match connectionsF with
          | some (.jarray cs) => .success (cs.foldl (fun st c => addConnection c st) s2)
          | _ => .success s2
      | _ => .formatError s1
  | .jotherDoc => .formatError s1

/-- The document produced by `handleExport` in the ExportImportPanel: the
JSON object `\x7b nodes, connections \x7d` built from the current store
state. -/
def handleExport (s : NodesState) : ImportedDoc :=
  .jobject (some (.jarray s.nodes)) (some (.jarray s.connections))

/-- The empty card inserted by `addNewCarouselCard` in the CarouselCard
component. -/
def newCardItem : CardItem :=
  { title := "", description := "", image := "", actions := [] }

/-- The `addNewCarouselCard` handler of the CarouselCard component: given
the component's node id and carousel data props and the index of the card
the button belongs to, it looks the node up in the store, splices an empty
card right after that index
(`cards.slice(0, i+1) ++ [newCardItem] ++ cards.slice(i+1)`), and writes
the node back with `updateNode`; if the node is not found it returns
without touching the store. -/
def addNewCarouselCard (id : String) (data : CarouselData) (currentIndex : Nat)
    (s : NodesState) : NodesState :=
  match s.nodes.find? (fun node => node.id == id) with
  | none => s
  | some selectedNode =>
      let updatedCards :=
        data.cards.take (currentIndex + 1) ++ [newCardItem] ++ data.cards.drop (currentIndex + 1)
      let updatedNode : NodeData :=
        { selectedNode with
            data := { selectedNode.data with content := .carousel ⟨updatedCards⟩ } }
      updateNode updatedNode s

/-- One call in a sequence of node-level store operations. -/
inductive NodeOp where
  | add (n : NodeData)
  | remove (id : String)
  | update (n : NodeData)
deriving DecidableEq, Repr

/-- Apply one node-level store operation. -/
def applyOp (s : NodesState) : NodeOp → NodesState
  | .add n => addNode n s
  | .remove i => removeNode i s
  | .update n => updateNode n s

/-- Apply a finite sequence of node-level store operations in order. -/
def applyOps (ops : List NodeOp) (s : NodesState) : NodesState :=
  ops.foldl applyOp s

/-- Whether an operation is a removal of the given id. -/
def removesId (i : String) : NodeOp → Bool
  | .remove j => j == i
  | _ => false

/-- Whether the operation sequence contains a removal of the given id. -/
def removedIn (ops : List NodeOp) (i : String) : Bool :=
  ops.any (removesId i)

/-- The last `update` operation in the sequence whose node carries the given
id, if any. -/
def lastUpdate : List NodeOp → String → Option NodeData
  | [], _ => none
  | op :: ops, i =>
      match lastUpdate ops i with
      | some u => some u
      | none =>
          match op with
          | .update m => if m.id == i then some m else none
          | _ => none

/-- Final content of a node that survives the operation sequence: the node
of the last matching `update` call, or the node itself if never updated. -/
def finalContent (ops : List NodeOp) (n : NodeData) : NodeData :=
  (lastUpdate ops n.id).getD n

/-- The nodes contributed by the `add` calls of the sequence: each added
node whose id is not removed later survives, carrying the content of the
last later matching `update` call (or its content at `add`), in the order
the `add` calls occur. -/
def addedNodes : List NodeOp → List NodeData
  | [] => []
  | .add n :: rest =>
      (if removedIn rest n.id then [] else [finalContent rest n]) ++ addedNodes rest
  | _ :: rest => addedNodes rest

/-- Specification-side characterization of a node-operation sequence: the
initially present nodes whose ids are never removed survive with their
latest update applied, in order, followed by the surviving added nodes. -/
def specNodes (ops : List NodeOp) (init : List NodeData) : List NodeData :=
  (init.filter (fun n => !removedIn ops n.id)).map (finalContent ops) ++ addedNodes ops

/-- Shape 3 of the import dispatch: a parsed document that is neither an
object with a `nodes` array field nor a bare array at the root. -/
def isShape3 : ImportedDoc → Bool
  | .jobject (some (.jarray _)) _ => false
  | .jobject _ _ => true
  | .jarrayDoc _ => false
  | .jotherDoc => true

/-- Fixture: a rich-card datum with empty content. -/
def exDatum : NodeDatum :=
  { type := .richCard, content := .richCard { title := "", description := "", image := "", actions := [] } }

/-- Fixture: a node with the given id at the origin. -/
def mkExNode (i : String) : NodeData :=
  { id := i, position := { x := 0, y := 0 }, data := exDatum }

/-- Fixture: an edge descriptor with id `e1` between nodes `a` and `b`. -/
def exEdge : Edge :=
  { id := "e1", source := "a", target := "b" }

/-- Fixture: a connection with id `c1` from node `a` to node `b`. -/
def exConn : ConnectionData :=
  { id := "c1", sourceId := "a", targetId := "b"
    sourcePosition := { x := 0, y := 0 }, targetPosition := { x := 0, y := 0 }
    edgeData := exEdge }

/-- Fixture: a store holding node `a` and connection `c1`. -/
def exState : NodesState :=
  { nodes := [mkExNode "a"], connections := [exConn] }

/-- Auxiliary: folding `addConnection` over a list appends it to the
connection sequence in order. -/
theorem foldl_addConnection (cs : List ConnectionData) (s : NodesState) :
    cs.foldl (fun st c => addConnection c st) s = { s with connections := s.connections ++ cs } := by
  induction cs generalizing s with
  | nil => simp
  | cons c cs ih =>
      rw [List.foldl_cons, ih]
      simp [addConnection]

/-- Claim C1 counterexample: importing a shape-3 document (here a bare
non-array, non-object JSON value) into a store with a nonempty connection
sequence fails with a format error, but the resulting state is NOT the
prior state: the connection sequence has been cleared, because
`clearConnections()` runs before the shape check. -/
theorem c1_shape3_state_changed :
    importFlowData ImportedDoc.jotherDoc exState ≠
      ImportResult.formatError exState ∧
    importFlowData ImportedDoc.jotherDoc exState =
      ImportResult.formatError { nodes := exState.nodes, connections := [] } := by
  constructor
  · intro h
    have : exState.connections = [] := by
      have := ImportResult.formatError.inj h.symm
      simpa [importFlowData, clearConnections] using congrArg NodesState.connections this
    simp [exState] at this
  · rfl

/-- Claim C1, amended: if an imported JSON document is neither an object
with a `nodes` array nor a bare array at the root (shape 3), the import
fails with a format error; the node sequence is exactly what it was before,
but the connection sequence is emptied, since connections are cleared
before the shape validation runs. -/
theorem c1_shape3_format_error (d : ImportedDoc) (s : NodesState)
    (h : isShape3 d = true) :
    importFlowData d s = ImportResult.formatError { nodes := s.nodes, connections := [] } := by
  match d with
  | .jobject none _ => rfl
  | .jobject (some .jother) _ => rfl
  | .jobject (some (.jarray _)) _ => simp [isShape3] at h
  | .jarrayDoc _ => simp [isShape3] at h
  | .jotherDoc => rfl

/-- Claim C1 witness: the amended theorem applied at a concrete shape-3
document and the fixture store. -/
theorem c1_shape3_format_error_witness :
    importFlowData ImportedDoc.jotherDoc { nodes := [mkExNode "b"], connections := [exConn] } =
      ImportResult.formatError { nodes := [mkExNode "b"], connections := [] } :=
  c1_shape3_format_error ImportedDoc.jotherDoc
    { nodes := [mkExNode "b"], connections := [exConn] } rfl

/-- Claim C2: exporting a store state to the `\x7b nodes, connections \x7d`
document and importing that document back yields a state equal to the
original — the import replaces the nodes wholesale, clears the connections,
and re-appends each exported connection in order. -/
theorem c2_export_import_roundtrip (s : NodesState) :
    importFlowData (handleExport s) s = ImportResult.success s := by
  simp [importFlowData, handleExport, clearConnections, setNodes, foldl_addConnection]

/-- Claim C4: `removeNode` leaves the connection sequence completely
unchanged; `getConnectionsByNodeId` on the removed id answers exactly as
before, and still returns every connection whose source or target equals
the removed id. -/
theorem c4_removeNode_keeps_connections (s : NodesState) (i : String) :
    (removeNode i s).connections = s.connections ∧
    getConnectionsByNodeId i (removeNode i s) = getConnectionsByNodeId i s ∧
    ∀ c ∈ s.connections, (c.sourceId = i ∨ c.targetId = i) →
      c ∈ getConnectionsByNodeId i (removeNode i s) := by
  refine ⟨rfl, rfl, ?_⟩
  intro c hc h
  simp only [getConnectionsByNodeId, removeNode, List.mem_filter]
  exact ⟨hc, by simpa using h⟩

/-- Claim C4 witness: the theorem applied at the fixture store and the id of
its only node. -/
theorem c4_removeNode_keeps_connections_witness :
    (removeNode "a" exState).connections = exState.connections ∧
    getConnectionsByNodeId "a" (removeNode "a" exState) = getConnectionsByNodeId "a" exState ∧
    ∀ c ∈ exState.connections, (c.sourceId = "a" ∨ c.targetId = "a") →
      c ∈ getConnectionsByNodeId "a" (removeNode "a" exState) :=
  c4_removeNode_keeps_connections exState "a"

/-- Claim C5 counterexample: the connection deriver copies the raw edge's id
verbatim — at concrete endpoint nodes and edge, the produced connection's
id equals the edge's id, refuting "the connection's id is not simply the
raw edge's id verbatim". -/
theorem c5_id_copied_verbatim :
    (createConnectionData (mkExNode "a") (mkExNode "b") exEdge).id = exEdge.id :=
  rfl

/-- Claim C5, amended: the connection produced by `createConnectionData`
carries the given edge's id verbatim (no suffix is added by the deriver);
the uniqueness-disambiguating timestamp suffix is added by the `onConnect`
call site, which synthesizes the edge's id as
`edge-<sourceId>-<targetId>-<timestamp>` from the endpoint ids of the
connect event — which itself carries no raw edge id at all. -/
theorem c5_id_provenance (sourceNode targetNode : NodeData) (edge : Edge)
    (params : ConnectParams) (now : String) :
    (createConnectionData sourceNode targetNode edge).id = edge.id ∧
    (mkNewEdge params now).id =
      "edge-" ++ params.source ++ "-" ++ params.target ++ "-" ++ now :=
  ⟨rfl, rfl⟩

/-- Claim C6: if either endpoint id of a connect event matches no node in
the current node list, `onConnect` skips derivation entirely: the
connection sequence — indeed the whole store — is unchanged. -/
theorem c6_onConnect_missing_endpoint_noop (params : ConnectParams) (now : String)
    (nodes : List NodeData) (s : NodesState)
    (h : nodes.find? (fun node => node.id == params.source) = none ∨
         nodes.find? (fun node => node.id == params.target) = none) :
    (onConnect params now nodes s).connections = s.connections ∧
    onConnect params now nodes s = s := by
  have hstore : onConnect params now nodes s = s := by
    unfold onConnect
    rcases h with h | h
    · simp [h]
    · cases hs : nodes.find? (fun node => node.id == params.source) <;> simp [hs, h]
  exact ⟨by rw [hstore], hstore⟩

/-- Claim C6 witness: the theorem applied at a connect event whose source id
matches no node in the fixture list. -/
theorem c6_onConnect_missing_endpoint_noop_witness :
    (onConnect { source := "x", target := "a" } "7" [mkExNode "a"] exState).connections =
      exState.connections ∧
    onConnect { source := "x", target := "a" } "7" [mkExNode "a"] exState = exState :=
  c6_onConnect_missing_endpoint_noop { source := "x", target := "a" } "7" [mkExNode "a"]
    exState (Or.inl (by decide))

/-- Claim C7: `getConnectionsByNodeId x` returns exactly the connections in
which `x` is the source or the target, as a sublist of the connection
sequence (hence in insertion order); being a pure read, it leaves the state
untouched. -/
theorem c7_getConnectionsByNodeId_spec (s : NodesState) (x : String) :
    (∀ c, c ∈ getConnectionsByNodeId x s ↔
      c ∈ s.connections ∧ (c.sourceId = x ∨ c.targetId = x)) ∧
    List.Sublist (getConnectionsByNodeId x s) s.connections := by
  constructor
  · intro c
    simp [getConnectionsByNodeId, List.mem_filter]
  · exact List.filter_sublist _

/-- Claim C7 witness: the theorem applied at the fixture store and node id
`a`. -/
theorem c7_getConnectionsByNodeId_spec_witness :
    (∀ c, c ∈ getConnectionsByNodeId "a" exState ↔
      c ∈ exState.connections ∧ (c.sourceId = "a" ∨ c.targetId = "a")) ∧
    List.Sublist (getConnectionsByNodeId "a" exState) exState.connections :=
  c7_getConnectionsByNodeId_spec exState "a"

/-- Claim C8: importing a bare-array document `[n1, n2]` yields exactly the
node sequence `[n1, n2]` and an empty connection sequence, from any prior
store state. -/
theorem c8_bare_array_import (s : NodesState) (n1 n2 : NodeData) :
    importFlowData (ImportedDoc.jarrayDoc [n1, n2]) s =
      ImportResult.success { nodes := [n1, n2], connections := [] } :=
  rfl

/-- Auxiliary: splicing an element right after the first `n` elements of a
list is insertion at index `n`, whenever `n` is within bounds. -/
theorem take_splice_eq_insertIdx {α : Type} (x : α) :
    ∀ (l : List α) (n : Nat), n ≤ l.length →
      l.take n ++ [x] ++ l.drop n = List.insertIdx n x l := by
  intro l
  induction l with
  | nil =>
      intro n h
      have hn : n = 0 := Nat.le_zero.mp h
      subst hn
      simp [List.insertIdx_zero]
  | cons a l ih =>
      intro n h
      cases n with
      | zero => simp [List.insertIdx_zero]
      | succ n =>
          simp only [List.take_succ_cons, List.drop_succ_cons, List.insertIdx_succ_cons,
            List.cons_append]
          rw [ih n (by simpa using h)]

/-- Fixture: a carousel node with one empty card, with id `car`. -/
def carNode : NodeData :=
  { id := "car", position := { x := 0, y := 0 }
    data := { type := .carousel, content := .carousel ⟨[newCardItem]⟩ } }

/-- Fixture: a store holding only the carousel fixture node. -/
def carState : NodesState :=
  { nodes := [carNode], connections := [] }

/-- Claim C9: when the carousel node is found in the store,
`addNewCarouselCard` writes it back with the empty card
`\x7b title:"", description:"", image:"", actions:[] \x7d` inserted
immediately after the given index: the cards grow by one, every card up to
the index keeps its position, the new card sits at index `i + 1`, and every
later card is shifted by exactly one position. In particular a one-card
carousel at index 0 becomes a two-card sequence with the original card at
index 0 and the empty card at index 1. -/
theorem c9_addNewCarouselCard_inserts (id : String) (data : CarouselData) (i : Nat)
    (s : NodesState) (node : NodeData)
    (hfind : s.nodes.find? (fun n => n.id == id) = some node)
    (hi : i < data.cards.length) :
    addNewCarouselCard id data i s =
      updateNode
        { node with data := { node.data with
            content := .carousel ⟨List.insertIdx (i + 1) newCardItem data.cards⟩ } } s ∧
    (List.insertIdx (i + 1) newCardItem data.cards).length = data.cards.length + 1 ∧
    (∀ j : Nat, j ≤ i →
      (List.insertIdx (i + 1) newCardItem data.cards)[j]? = data.cards[j]?) ∧
    (List.insertIdx (i + 1) newCardItem data.cards)[i + 1]? = some newCardItem ∧
    (∀ j : Nat, i < j →
      (List.insertIdx (i + 1) newCardItem data.cards)[j + 1]? = data.cards[j]?) := by
  have hsp : data.cards.take (i + 1) ++ [newCardItem] ++ data.cards.drop (i + 1) =
      List.insertIdx (i + 1) newCardItem data.cards :=
    take_splice_eq_insertIdx newCardItem data.cards (i + 1) (by omega)
  have hlen : (data.cards.take (i + 1)).length = i + 1 := by
    rw [List.length_take]
    omega
  rw [← hsp]
  refine ⟨?_, ?_, ?_, ?_, ?_⟩
  · simp only [addNewCarouselCard, hfind]
  · simp only [List.append_assoc, List.length_append, hlen, List.length_cons,
      List.length_drop, List.length_nil]
    omega
  · intro j hj
    rw [List.append_assoc, List.getElem?_append_left (by rw [hlen]; omega)]
    exact List.getElem?_take_of_lt (by omega)
  · rw [List.append_assoc, List.getElem?_append_right (by rw [hlen])]
    rw [hlen, Nat.sub_self, List.singleton_append, List.getElem?_cons_zero]
  · intro j hj
    rw [List.append_assoc, List.getElem?_append_right (by rw [hlen]; omega)]
    have h2 : j + 1 - (data.cards.take (i + 1)).length = (j - i - 1) + 1 := by
      rw [hlen]; omega
    rw [h2, List.singleton_append, List.getElem?_cons_succ, List.getElem?_drop]
    have h3 : i + 1 + (j - i - 1) = j := by omega
    rw [h3]

/-- Claim C9 witness: the theorem applied at the one-empty-card carousel
fixture with index 0. -/
theorem c9_addNewCarouselCard_inserts_witness :
    addNewCarouselCard "car" ⟨[newCardItem]⟩ 0 carState =
      updateNode
        { carNode with data := { carNode.data with
            content := .carousel ⟨List.insertIdx 1 newCardItem [newCardItem]⟩ } } carState ∧
    (List.insertIdx 1 newCardItem [newCardItem]).length = [newCardItem].length + 1 ∧
    (∀ j : Nat, j ≤ 0 →
      (List.insertIdx 1 newCardItem [newCardItem])[j]? = [newCardItem][j]?) ∧
    (List.insertIdx 1 newCardItem [newCardItem])[1]? = some newCardItem ∧
    (∀ j : Nat, 0 < j →
      (List.insertIdx 1 newCardItem [newCardItem])[j + 1]? = [newCardItem][j]?) :=
  c9_addNewCarouselCard_inserts "car" ⟨[newCardItem]⟩ 0 carState carNode (by rfl) (by decide)

/-- Claim C10: with duplicate ids present or not, `updateNode n` replaces
every position holding a node whose id equals `n.id` (length preserved,
position-wise replacement), and `removeNode i` removes every node whose id
equals `i` — neither operation singles out a first occurrence. -/
theorem c10_duplicates_uniform (n : NodeData) (i : String) (s : NodesState) :
    (updateNode n s).nodes.length = s.nodes.length ∧
    (∀ j : Nat, (updateNode n s).nodes[j]? =
      (s.nodes[j]?).map (fun m => if m.id = n.id then n else m)) ∧
    (∀ m, m ∈ (removeNode i s).nodes ↔ (m ∈ s.nodes ∧ m.id ≠ i)) := by
  refine ⟨by simp [updateNode], ?_, ?_⟩
  · intro j
    simp only [updateNode, List.getElem?_map]
    cases s.nodes[j]? with
    | none => rfl
    | some m => simp
  · intro m
    simp [removeNode, List.mem_filter]

/-- Auxiliary: unfolding `applyOps` one operation at a time. -/
theorem applyOps_cons (op : NodeOp) (ops : List NodeOp) (s : NodesState) :
    applyOps (op :: ops) s = applyOps ops (applyOp s op) :=
  rfl

/-- Auxiliary: an `add` at the head does not affect which ids get removed. -/
theorem removedIn_cons_add (n : NodeData) (ops : List NodeOp) (i : String) :
    removedIn (NodeOp.add n :: ops) i = removedIn ops i := by
  simp [removedIn, removesId, List.any_cons]

/-- Auxiliary: an `update` at the head does not affect which ids get
removed. -/
theorem removedIn_cons_update (m : NodeData) (ops : List NodeOp) (i : String) :
    removedIn (NodeOp.update m :: ops) i = removedIn ops i := by
  simp [removedIn, removesId, List.any_cons]

/-- Auxiliary: a `remove` at the head removes its own id on top of the
rest. -/
theorem removedIn_cons_remove (j : String) (ops : List NodeOp) (i : String) :
    removedIn (NodeOp.remove j :: ops) i = ((j == i) || removedIn ops i) := by
  simp [removedIn, removesId, List.any_cons]

/-- Auxiliary: one-step unfolding of `lastUpdate`. -/
theorem lastUpdate_cons (op : NodeOp) (ops : List NodeOp) (i : String) :
    lastUpdate (op :: ops) i =
      match lastUpdate ops i with
      | some u => some u
      | none =>
          match op with
          | NodeOp.update m => if m.id == i then some m else none
          | _ => none :=
  rfl

/-- Auxiliary: an `add` at the head contributes no update. -/
theorem lastUpdate_cons_add (n : NodeData) (ops : List NodeOp) (i : String) :
    lastUpdate (NodeOp.add n :: ops) i = lastUpdate ops i := by
  rw [lastUpdate_cons]
  cases lastUpdate ops i <;> rfl

/-- Auxiliary: a `remove` at the head contributes no update. -/
theorem lastUpdate_cons_remove (j : String) (ops : List NodeOp) (i : String) :
    lastUpdate (NodeOp.remove j :: ops) i = lastUpdate ops i := by
  rw [lastUpdate_cons]
  cases lastUpdate ops i <;> rfl

/-- Auxiliary: `finalContent` ignores a heading `add`. -/
theorem finalContent_cons_add (n : NodeData) (ops : List NodeOp) (x : NodeData) :
    finalContent (NodeOp.add n :: ops) x = finalContent ops x := by
  simp [finalContent, lastUpdate_cons_add]

/-- Auxiliary: `finalContent` ignores a heading `remove`. -/
theorem finalContent_cons_remove (j : String) (ops : List NodeOp) (x : NodeData) :
    finalContent (NodeOp.remove j :: ops) x = finalContent ops x := by
  simp [finalContent, lastUpdate_cons_remove]

/-- Auxiliary: `updateNode`'s per-node replacement preserves the id. -/
theorem updated_id (m x : NodeData) : (if x.id == m.id then m else x).id = x.id := by
  by_cases h : x.id = m.id
  · simp [h]
  · simp [h]

/-- Auxiliary: a heading `update m` folds into `finalContent` as a
conditional replacement of the node before the remaining operations act. -/
theorem finalContent_cons_update (m : NodeData) (ops : List NodeOp) (x : NodeData) :
    finalContent (NodeOp.update m :: ops) x =
      finalContent ops (if x.id == m.id then m else x) := by
  simp only [finalContent, updated_id]
  rw [lastUpdate_cons]
  cases h : lastUpdate ops x.id with
  | some u => simp
  | none =>
      by_cases hm : m.id = x.id
      · simp [hm]
      · have hx : ¬ x.id = m.id := fun hh => hm hh.symm
        simp [hm, hx]

/-- Auxiliary: `addedNodes` of a heading `add`. -/
theorem addedNodes_cons_add (n : NodeData) (ops : List NodeOp) :
    addedNodes (NodeOp.add n :: ops) =
      (if removedIn ops n.id then [] else [finalContent ops n]) ++ addedNodes ops :=
  rfl

/-- Auxiliary: `addedNodes` ignores a heading `remove`. -/
theorem addedNodes_cons_remove (j : String) (ops : List NodeOp) :
    addedNodes (NodeOp.remove j :: ops) = addedNodes ops :=
  rfl

/-- Auxiliary: `addedNodes` ignores a heading `update`. -/
theorem addedNodes_cons_update (m : NodeData) (ops : List NodeOp) :
    addedNodes (NodeOp.update m :: ops) = addedNodes ops :=
  rfl

/-- Auxiliary: the node sequence reached by any sequence of node operations
is the one the specification-side characterization `specNodes` predicts. -/
theorem applyOps_eq_specNodes (ops : List NodeOp) : ∀ (s : NodesState),
    (applyOps ops s).nodes = specNodes ops s.nodes := by
  induction ops with
  | nil =>
      intro s
      have hfin0 : finalContent ([] : List NodeOp) = fun x : NodeData => x := by
        funext x
        rfl
      simp [applyOps, specNodes, removedIn, addedNodes, hfin0]
  | cons op ops ih =>
      intro s
      rw [applyOps_cons, ih]
      cases op with
      | add n =>
          have hnodes : (applyOp s (NodeOp.add n)).nodes = s.nodes ++ [n] := rfl
          rw [hnodes]
          have hfil : (fun x : NodeData => !removedIn (NodeOp.add n :: ops) x.id)
              = (fun x : NodeData => !removedIn ops x.id) := by
            funext x
            rw [removedIn_cons_add]
          have hfin : finalContent (NodeOp.add n :: ops) = finalContent ops := by
            funext x
            exact finalContent_cons_add n ops x
          simp only [specNodes, hfil, hfin, addedNodes_cons_add, List.filter_append,
            List.map_append, List.append_assoc]
          congr 1
          cases h : removedIn ops n.id <;> simp [h]
      | remove j =>
          have hnodes : (applyOp s (NodeOp.remove j)).nodes
              = s.nodes.filter (fun x => x.id != j) := rfl
          rw [hnodes]
          have hfin : finalContent (NodeOp.remove j :: ops) = finalContent ops := by
            funext x
            exact finalContent_cons_remove j ops x
          simp only [specNodes, hfin, addedNodes_cons_remove, List.filter_filter]
          congr 1
          apply congrArg
          apply List.filter_congr
          intro x _
          rw [removedIn_cons_remove]
          cases hr : removedIn ops x.id
          · simp [bne, hr, eq_comm]
          · simp [hr]
      | update m =>
          have hnodes : (applyOp s (NodeOp.update m)).nodes
              = s.nodes.map (fun x => if x.id == m.id then m else x) := rfl
          rw [hnodes]
          simp only [specNodes, addedNodes_cons_update]
          congr 1
          rw [List.filter_map, List.map_map]
          have hq : ((fun x : NodeData => !removedIn ops x.id) ∘
                (fun x : NodeData => if x.id == m.id then m else x))
              = (fun x : NodeData => !removedIn (NodeOp.update m :: ops) x.id) := by
            funext x
            simp only [Function.comp, updated_id, removedIn_cons_update]
          have hg : (finalContent ops ∘
                (fun x : NodeData => if x.id == m.id then m else x))
              = finalContent (NodeOp.update m :: ops) := by
            funext x
            simp only [Function.comp]
            exact (finalContent_cons_update m ops x).symm
          rw [hq, hg]

/-- Fixture: a concrete operation sequence for the C3 witness. -/
def exOps : List NodeOp :=
  [NodeOp.add (mkExNode "b"), NodeOp.update (mkExNode "b"), NodeOp.remove "a"]

/-- Claim C3: applying any finite sequence of `addNode` / `removeNode` /
`updateNode` calls yields exactly the node sequence `specNodes` describes —
the surviving pre-existing nodes, then the nodes whose ids were added and
not subsequently removed, each carrying the content of the last matching
later `updateNode` (or its content at `addNode` if never updated) — and an
`updateNode` whose id is present in no node is a no-op on the store. -/
theorem c3_op_sequences_spec (ops : List NodeOp) (s : NodesState) :
    (applyOps ops s).nodes = specNodes ops s.nodes ∧
    (∀ n : NodeData, (∀ m ∈ s.nodes, m.id ≠ n.id) → updateNode n s = s) := by
  refine ⟨applyOps_eq_specNodes ops s, ?_⟩
  intro n h
  have hmap : s.nodes.map (fun x => if x.id == n.id then n else x) = s.nodes := by
    rw [List.map_congr_left, List.map_id]
    intro a ha
    simp [h a ha]
  have hdef : updateNode n s =
      { s with nodes := s.nodes.map (fun x => if x.id == n.id then n else x) } :=
    rfl
  rw [hdef, hmap]

/-- Claim C3 witness: the theorem applied at a concrete operation sequence
(add `b`, update `b`, remove `a`) over the fixture store. -/
theorem c3_op_sequences_spec_witness :
    (applyOps exOps exState).nodes = specNodes exOps exState.nodes ∧
    (∀ n : NodeData, (∀ m ∈ exState.nodes, m.id ≠ n.id) → updateNode n exState = exState) :=
  c3_op_sequences_spec exOps exState

/-- Fixture: a corrupt store holding two nodes that share the id `a`. -/
def dupState : NodesState :=
  { nodes := [mkExNode "a", mkExNode "a"], connections := [] }

/-- Claim C10 witness: the theorem applied at a store that holds two nodes
sharing the id `a`. -/
theorem c10_duplicates_uniform_witness :
    (updateNode (mkExNode "a") dupState).nodes.length = dupState.nodes.length ∧
    (∀ j : Nat, (updateNode (mkExNode "a") dupState).nodes[j]? =
      (dupState.nodes[j]?).map (fun m => if m.id = (mkExNode "a").id then mkExNode "a" else m)) ∧
    (∀ m, m ∈ (removeNode "a" dupState).nodes ↔ (m ∈ dupState.nodes ∧ m.id ≠ "a")) :=
  c10_duplicates_uniform (mkExNode "a") "a" dupState
